import Mathlib

/-!
Shallow embedding of the event-sourced "Issue" aggregate experiments
(lzukowski/aggregates).  The repository contains several parallel
implementations of the same command-handling idea; the definitions below
transcribe, per file, the state machines, guards, replay folds, the
in-memory event store of `project_management/eventsourcing.py`, and the
command handlers, and the theorems settle the specification claims
against them.

Modelling conventions: UUIDs are `Nat`, timestamps are `Nat` ticks
(they carry no business meaning in the source), raised exceptions are
`Except` errors (`InvalidTransition` payloads - a command name and a
stream id used only for diagnostics - are dropped), and the mutable
`defaultdict` of the in-memory store is an association list in which a
key lookup materialises a missing entry, exactly as `defaultdict`
access does.
-/

deriving instance DecidableEq for Except

namespace Aggregates

/-- The six event kinds of `project_management/events.py`. -/
inductive EventKind where
  | opened
  | progressStarted
  | progressStopped
  | reopened
  | resolved
  | closed
deriving DecidableEq, Repr

/-- An event envelope: `originator_id`, `originator_version`, `timestamp`
(as in `project_management/eventsourcing.py`), plus the kind tag that the
Python source carries as the runtime class of the event. -/
structure Event where
  originator_id : Nat
  originator_version : Nat
  timestamp : Nat
  kind : EventKind
deriving DecidableEq, Repr

/-- The five-valued `State` enum of `project_management/issue.py`;
`Option State` with `none` is the absent / uninitialised state. -/
inductive State where
  | OPEN
  | CLOSED
  | IN_PROGRESS
  | REOPENED
  | RESOLVED
deriving DecidableEq, Repr, Fintype

/-- The six command classes of `project_management/commands.py` as a tag. -/
inductive CmdKind where
  | create
  | start
  | stop
  | close
  | reopen
  | resolve
deriving DecidableEq, Repr, Fintype

/-- A command value: each Python command class carries only the target
stream id. -/
structure Cmd where
  id : Nat
  kind : CmdKind
deriving DecidableEq, Repr

/-- The `InvalidTransition` exception of `project_management/issue.py`
(diagnostic payload dropped). -/
inductive TransErr where
  | invalidTransition
deriving DecidableEq, Repr

/-! ## The in-memory event store (`project_management/eventsourcing.py`)

`EventStore._in_memory` is a `defaultdict(list)`: reading a missing key
inserts an empty list.  We model the dict as an association list with
unique keys; `touchEntries` is the defaultdict materialisation performed
by a bare `self._in_memory[originator_id]` access. -/

/-- Dict lookup: the list stored under a key, `[]` when absent. -/
def lookupList : List (Nat × List Event) → Nat → List Event
  | [], _ => []
  | (k, v) :: rest, oid => if k = oid then v else lookupList rest oid

/-- `defaultdict` access: insert `(oid, [])` when the key is absent. -/
def touchEntries : List (Nat × List Event) → Nat → List (Nat × List Event)
  | [], oid => [(oid, [])]
  | (k, v) :: rest, oid =>
      if k = oid then (k, v) :: rest else (k, v) :: touchEntries rest oid

/-- `self._in_memory[e.originator_id].append(e)`: append one event to its
stream, materialising the entry when missing. -/
def appendEntry : List (Nat × List Event) → Event → List (Nat × List Event)
  | [], e => [(e.originator_id, [e])]
  | (k, v) :: rest, e =>
      if k = e.originator_id then (k, v ++ [e]) :: rest
      else (k, v) :: appendEntry rest e

/-- The in-memory `EventStore` state. -/
structure EventStoreMem where
  entries : List (Nat × List Event)
deriving DecidableEq, Repr

/-- `EventStore.put(*events)`: append every event to its stream,
unconditionally; the method has no expected-version parameter and cannot
fail. -/
def EventStoreMem.put (s : EventStoreMem) (events : List Event) : EventStoreMem :=
  ⟨events.foldl appendEntry s.entries⟩

/-- Version order used by `EventStore.get`'s `sorted(..., key=version)`. -/
def versionLE (a b : Event) : Prop :=
  a.originator_version ≤ b.originator_version

instance : DecidableRel versionLE := fun a b =>
  inferInstanceAs (Decidable (a.originator_version ≤ b.originator_version))

instance : IsTotal Event versionLE :=
  ⟨fun a b => Nat.le_total a.originator_version b.originator_version⟩

instance : IsTrans Event versionLE :=
  ⟨fun _ _ _ h1 h2 => Nat.le_trans h1 h2⟩

/-- Python truthiness of an optional integer bound: `None` and `0` are
falsy. -/
def truthy : Option Nat → Bool
  | none => false
  | some n => n ≠ 0

/-- `EventStore.get.event_is_valid`: note the bounds are tested for
truthiness before being compared, so a bound of `0` is ignored. -/
def event_is_valid (after_version to_version : Option Nat) (e : Event) : Bool :=
  if truthy after_version && !(decide (e.originator_version > after_version.getD 0)) then
    false
  else if truthy to_version && !(decide (e.originator_version ≤ to_version.getD 0)) then
    false
  else true

/-- `EventStore.get`: filter by the (truthy) bounds, sort by version
(descending when `desc`), truncate to `limit`.  The bare
`self._in_memory[originator_id]` access inside it materialises the key,
so the call also returns the store as mutated. -/
def EventStoreMem.get (s : EventStoreMem) (oid : Nat)
    (after_version to_version : Option Nat) (desc : Bool) (limit : Option Nat) :
    List Event × EventStoreMem :=
  let entries1 := touchEntries s.entries oid
  let valid := (lookupList entries1 oid).filter (event_is_valid after_version to_version)
  let sortedAsc := List.insertionSort versionLE valid
  let ordered := if desc then sortedAsc.reverse else sortedAsc
  (match limit with
   | none => ordered
   | some n => ordered.take n,
   ⟨entries1⟩)

/-- `EventStore.actual_version`: `None` for an unknown stream, otherwise
`max` over the stream's versions - which raises `ValueError` (modelled as
`.error ()`) when the stored list is empty. -/
def EventStoreMem.actual_version (s : EventStoreMem) (oid : Nat) :
    Except Unit (Option Nat) :=
  if s.entries.any (fun p => p.1 = oid) then
    match lookupList s.entries oid with
    | [] => .error ()
    | e :: es =>
        .ok (some ((es.map (·.originator_version)).foldl Nat.max e.originator_version))
  else .ok none

/-! ### Store lemmas -/

theorem lookupList_touchEntries (l : List (Nat × List Event)) (oid sid : Nat) :
    lookupList (touchEntries l oid) sid = lookupList l sid := by
  induction l with
  | nil =>
      by_cases h : oid = sid <;> simp [touchEntries, lookupList, h]
  | cons p rest ih =>
      obtain ⟨k, v⟩ := p
      by_cases h : k = oid
      · simp [touchEntries, h]
      · by_cases h2 : k = sid
        · have h3 : ¬ sid = oid := fun hc => h (h2.trans hc)
          simp [touchEntries, lookupList, h, h2, h3]
        · simp [touchEntries, lookupList, h, h2, ih]

theorem lookupList_appendEntry (l : List (Nat × List Event)) (e : Event) (sid : Nat) :
    lookupList (appendEntry l e) sid =
      if e.originator_id = sid then lookupList l sid ++ [e] else lookupList l sid := by
  induction l with
  | nil =>
      by_cases h : e.originator_id = sid <;> simp [appendEntry, lookupList, h]
  | cons p rest ih =>
      obtain ⟨k, v⟩ := p
      by_cases h : k = e.originator_id
      · by_cases h2 : k = sid
        · have h3 : e.originator_id = sid := by rw [← h, h2]
          simp [appendEntry, lookupList, h, h2, h3]
        · have h3 : ¬ e.originator_id = sid := fun hc => h2 (by rw [h, hc])
          simp [appendEntry, lookupList, h, h2, h3]
      · by_cases h2 : k = sid
        · have h3 : ¬ e.originator_id = sid := fun hc => h (h2.trans hc.symm)
          have h4 : ¬ sid = e.originator_id := fun hc => h (h2.trans hc)
          simp [appendEntry, lookupList, h, h2, h3, h4]
        · simp [appendEntry, lookupList, h, h2, ih]

theorem lookupList_put (s : EventStoreMem) (events : List Event) (sid : Nat) :
    lookupList (s.put events).entries sid =
      lookupList s.entries sid ++ events.filter (fun e => e.originator_id == sid) := by
  induction events generalizing s with
  | nil => simp [EventStoreMem.put]
  | cons e rest ih =>
      have step : (s.put (e :: rest)) = (EventStoreMem.mk (appendEntry s.entries e)).put rest := by
        simp [EventStoreMem.put]
      rw [step, ih]
      by_cases h : e.originator_id = sid
      · simp [lookupList_appendEntry, h]
      · simp [lookupList_appendEntry, h]

/-! ## The `aggregate_root.py` implementation

`Issue(Aggregate)` holds `id`, `version` (0 before any event), a buffer
of pending events and a `state` attribute (`None` before any event).
`Aggregate.apply` records the applied event's version; `Issue.apply`
additionally maps the event's class to a `State`.  Each command method
checks its `can_` guard and raises `InvalidTransition` when it fails,
otherwise triggers the single resulting event with `version + 1`. -/

structure ARIssue where
  id : Nat
  version : Nat
  pending : List Event
  state : Option State
deriving DecidableEq, Repr

/-- `Issue.apply` on top of `Aggregate.apply`: set the state from the
event's class and record the event's version. -/
def ARIssue.applyEvent (i : ARIssue) (e : Event) : ARIssue :=
  let st : Option State :=
    match e.kind with
    | .opened => some State.OPEN
    | .progressStarted => some State.IN_PROGRESS
    | .progressStopped => some State.OPEN
    | .reopened => some State.REOPENED
    | .resolved => some State.RESOLVED
    | .closed => some State.CLOSED
  { i with state := st, version := e.originator_version }

/-- Errors observable from the staged `aggregate_root.py`:
`InvalidTransition` from a failed guard, and Python's `AttributeError`
from the two calls to methods that do not exist in the staged source.
The command methods call `self.trigger_event(...)`, but the base
`Aggregate` defines only `_trigger_event`; the handler's `_aggregate`
calls `self._repository.get(issue)`, but the local `Repository` defines
only `apply`, `save` and `aggregate`. -/
inductive ARErr where
  | invalidTransition
  | attributeError
deriving DecidableEq, Repr

def ARIssue.can_create (i : ARIssue) : Bool :=
  i.state != some State.OPEN

def ARIssue.can_start (i : ARIssue) : Bool :=
  [some State.OPEN, some State.REOPENED].contains i.state

def ARIssue.can_close (i : ARIssue) : Bool :=
  [some State.OPEN, some State.IN_PROGRESS,
   some State.REOPENED, some State.RESOLVED].contains i.state

def ARIssue.can_reopen (i : ARIssue) : Bool :=
  [some State.CLOSED, some State.RESOLVED].contains i.state

def ARIssue.can_stop (i : ARIssue) : Bool :=
  i.state == some State.IN_PROGRESS

def ARIssue.can_resolve (i : ARIssue) : Bool :=
  [some State.OPEN, some State.REOPENED, some State.IN_PROGRESS].contains i.state

/-- `Issue.create` as staged: a failed guard raises `InvalidTransition`;
a passed guard reaches `self.trigger_event(IssueOpened)`, which does not
exist (`Aggregate` defines only `_trigger_event`), so it raises
`AttributeError`.  No event is emitted on either path and the issue is
never modified, so the method returns no updated issue. -/
def ARIssue.create (i : ARIssue) : Except ARErr ARIssue :=
  if i.can_create then .error .attributeError
  else .error .invalidTransition

/-- `Issue.start` as staged: like `create`, the guard-pass path calls
the nonexistent `trigger_event` and raises `AttributeError`. -/
def ARIssue.start (i : ARIssue) : Except ARErr ARIssue :=
  if i.can_start then .error .attributeError
  else .error .invalidTransition

/-- `Issue.stop` as staged. -/
def ARIssue.stop (i : ARIssue) : Except ARErr ARIssue :=
  if i.can_stop then .error .attributeError
  else .error .invalidTransition

/-- `Issue.close` as staged. -/
def ARIssue.close (i : ARIssue) : Except ARErr ARIssue :=
  if i.can_close then .error .attributeError
  else .error .invalidTransition

/-- `Issue.reopen` as staged. -/
def ARIssue.reopen (i : ARIssue) : Except ARErr ARIssue :=
  if i.can_reopen then .error .attributeError
  else .error .invalidTransition

/-- `Issue.resolve` as staged. -/
def ARIssue.resolve (i : ARIssue) : Except ARErr ARIssue :=
  if i.can_resolve then .error .attributeError
  else .error .invalidTransition

/-- `aggregate_root.CommandHandler._aggregate` as staged: the load step
is `self._repository.get(issue)`, and the local `Repository` defines no
`get` method (only `apply`, `save` and `aggregate`), so every handler
call raises `AttributeError` before the store is read or any guard is
evaluated.  The transition methods are unreachable through the handler,
no `InvalidTransition` can surface from it, nothing is ever saved, and
the store is untouched. -/
def aggregateRootHandle (s : EventStoreMem) (_c : Cmd) :
    Except ARErr Unit × EventStoreMem :=
  (.error .attributeError, s)

/-! ## The `extracted_state.py` implementation

`IssueState` tracks `id`, `version` and an optional status; `apply` maps
the event class to a status and records the event's own version.
`Issue` wraps the state with guard-checked transition methods that
buffer changes; the handler replays, mutates and `put`s the changes
only when the transition succeeded. -/

structure ESIssueState where
  id : Nat
  version : Nat
  status : Option State
deriving DecidableEq, Repr

/-- `extracted_state.IssueState.apply`. -/
def ESIssueState.applyES (st : ESIssueState) (e : Event) : ESIssueState :=
  let status : Option State :=
    match e.kind with
    | .opened => some State.OPEN
    | .progressStarted => some State.IN_PROGRESS
    | .progressStopped => some State.OPEN
    | .reopened => some State.REOPENED
    | .resolved => some State.RESOLVED
    | .closed => some State.CLOSED
  { st with status := status, version := e.originator_version }

structure ESIssue where
  state : ESIssueState
  changes : List Event
deriving DecidableEq, Repr

/-- The guard of each `extracted_state.Issue` transition property. -/
def esCan (st : ESIssueState) (k : CmdKind) : Bool :=
  match k with
  | .create => st.status != some State.OPEN
  | .start => st.status == some State.OPEN || st.status == some State.REOPENED
  | .stop => st.status == some State.IN_PROGRESS
  | .close =>
      st.status == some State.OPEN || st.status == some State.IN_PROGRESS
        || st.status == some State.REOPENED || st.status == some State.RESOLVED
  | .reopen => st.status == some State.CLOSED || st.status == some State.RESOLVED
  | .resolve =>
      st.status == some State.OPEN || st.status == some State.REOPENED
        || st.status == some State.IN_PROGRESS

/-- The event class triggered by each command method. -/
def eventKindOf (k : CmdKind) : EventKind :=
  match k with
  | .create => .opened
  | .start => .progressStarted
  | .stop => .progressStopped
  | .close => .closed
  | .reopen => .reopened
  | .resolve => .resolved

/-- `extracted_state.Issue._trigger_event`: build the event with
`state.version + 1`, apply it to the state, buffer it. -/
def ESIssue.trigger (i : ESIssue) (k : EventKind) (now : Nat) : ESIssue :=
  let e : Event := ⟨i.state.id, i.state.version + 1, now, k⟩
  ⟨i.state.applyES e, i.changes ++ [e]⟩

/-- Dispatch of `extracted_state.CommandHandler`: the transition method
checks the guard and triggers the single matching event. -/
def esProcess (i : ESIssue) (k : CmdKind) (now : Nat) : Except TransErr ESIssue :=
  if esCan i.state k then .ok (i.trigger (eventKindOf k) now)
  else .error .invalidTransition

/-- The `aggregate` context manager of `extracted_state.CommandHandler`:
replay the store into an `IssueState`, run the transition, and `put` the
buffered changes only when it returned normally. -/
def extractedStateHandle (s : EventStoreMem) (now : Nat) (c : Cmd) :
    Except TransErr Unit × EventStoreMem :=
  let (events, s1) := s.get c.id none none false none
  let st := events.foldl ESIssueState.applyES ⟨c.id, 0, none⟩
  match esProcess ⟨st, []⟩ c.kind now with
  | .error e => (.error e, s1)
  | .ok issue => (.ok (), s1.put issue.changes)

/-! ## The `functional.py` implementation

`IssueState.apply` maps the event class to a status but counts versions
(`self.version += 1`), and the handler publishes the single new event to
the external `event_sourcery` store with
`expected_version = state.version + 1`.  That store's interaction is
modelled at the call boundary: the handler consumes the stream's event
list (what `event_store.iter` yields) and returns the published event
together with the `expected_version` argument it passed. -/

structure FIssueState where
  id : Nat
  version : Nat
  status : Option State
deriving DecidableEq, Repr

/-- `functional.IssueState.apply`: status from the event class, version
incremented by one per applied event. -/
def FIssueState.applyF (st : FIssueState) (e : Event) : FIssueState :=
  let status : Option State :=
    match e.kind with
    | .opened => some State.OPEN
    | .progressStarted => some State.IN_PROGRESS
    | .progressStopped => some State.OPEN
    | .reopened => some State.REOPENED
    | .resolved => some State.RESOLVED
    | .closed => some State.CLOSED
  { st with status := status, version := st.version + 1 }

/-- `functional.CommandHandler.get_state`. -/
def functionalGetState (oid : Nat) (events : List Event) : FIssueState :=
  events.foldl FIssueState.applyF ⟨oid, 0, none⟩

/-- The static guards of the `Create` .. `Resolve` callables of
`functional.py` (their state predicates over `_status`). -/
def fCan (st : FIssueState) (k : CmdKind) : Bool :=
  match k with
  | .create => !(st.status == some State.OPEN)
  | .start => st.status == some State.OPEN || st.status == some State.REOPENED
  | .stop => st.status == some State.IN_PROGRESS
  | .close =>
      st.status == some State.OPEN || st.status == some State.IN_PROGRESS
        || st.status == some State.REOPENED || st.status == some State.RESOLVED
  | .reopen => st.status == some State.CLOSED || st.status == some State.RESOLVED
  | .resolve =>
      st.status == some State.OPEN || st.status == some State.REOPENED
        || st.status == some State.IN_PROGRESS

/-- `functional.CommandHandler.__call__` with `_trigger_event`: process
the command (guard check returning the event class), build the event with
`state.version + 1`, and publish it with
`expected_version = state.version + 1`.  The result carries the
published event and the `expected_version` argument of the publish
call. -/
def functionalHandle (events : List Event) (now : Nat) (c : Cmd) :
    Except TransErr (Event × Nat) :=
  let st := functionalGetState c.id events
  if fCan st c.kind then
    .ok (⟨st.id, st.version + 1, now, eventKindOf c.kind⟩, st.version + 1)
  else .error .invalidTransition

/-! ## The `repository.py` implementation

`Issue` is built from the loaded events and the loaded version
(`Repository.load` returns `(events, len(events))`); `_load` replays by
invoking the guard-checked command methods, and the changes buffered
during replay are cleared.  `version` is fixed at construction, so a
triggered event gets `version + 1`.  `Repository.save` publishes with
`expected_version = changes[-1].version`. -/

/-- The replay dispatch used by `repository.Issue._load`,
`polymorphic.CommandHandler.get_issue` and
`duck_typing.CommandHandler.get_issue`: the stored event's class selects
the matching transition method. -/
def cmdKindOfEvent : EventKind → CmdKind
  | .opened => .create
  | .progressStarted => .start
  | .progressStopped => .stop
  | .reopened => .reopen
  | .resolved => .resolve
  | .closed => .close

/-- The state assigned by each `repository.Issue` command method. -/
def stateAfter (k : CmdKind) : State :=
  match k with
  | .create => State.OPEN
  | .start => State.IN_PROGRESS
  | .stop => State.OPEN
  | .close => State.CLOSED
  | .reopen => State.REOPENED
  | .resolve => State.RESOLVED

structure RIssue where
  id : Nat
  state : Option State
  version : Nat
  changes : List Event
deriving DecidableEq, Repr

/-- The `can_` guards of `repository.Issue`. -/
def RIssue.can (i : RIssue) (k : CmdKind) : Bool :=
  match k with
  | .create => i.state != some State.OPEN
  | .start => i.state == some State.OPEN || i.state == some State.REOPENED
  | .stop => i.state == some State.IN_PROGRESS
  | .close =>
      i.state == some State.OPEN || i.state == some State.IN_PROGRESS
        || i.state == some State.REOPENED || i.state == some State.RESOLVED
  | .reopen => i.state == some State.CLOSED || i.state == some State.RESOLVED
  | .resolve =>
      i.state == some State.OPEN || i.state == some State.REOPENED
        || i.state == some State.IN_PROGRESS

/-- A `repository.Issue` command method: check the guard, assign the
state and register the event with `self.version + 1` (the version
attribute itself is never updated). -/
def RIssue.doCmd (i : RIssue) (k : CmdKind) (now : Nat) : Except TransErr RIssue :=
  if i.can k then
    .ok { i with
          state := some (stateAfter k),
          changes := i.changes ++ [⟨i.id, i.version + 1, now, eventKindOf k⟩] }
  else .error .invalidTransition

/-- `repository.Issue._load`: replay the stored events through the
guard-checked command methods. -/
def RIssue.loadEvents (i : RIssue) (events : List Event) (now : Nat) :
    Except TransErr RIssue :=
  match events with
  | [] => .ok i
  | e :: rest =>
      match i.doCmd (cmdKindOfEvent e.kind) now with
      | .error err => .error err
      | .ok i1 => i1.loadEvents rest now

/-- The `repository.Issue` constructor: fix the version, replay the
events, clear the changes buffered during replay. -/
def repositoryNewIssue (oid : Nat) (events : List Event) (version : Nat)
    (now : Nat) : Except TransErr RIssue :=
  match RIssue.loadEvents ⟨oid, none, version, []⟩ events now with
  | .error err => .error err
  | .ok i => .ok { i with changes := [] }

/-- The `aggregate` context manager of `repository.CommandHandler` with
`Repository.load` and `Repository.save`: the loaded version is
`len(events)`, and on normal return the changes are published with
`expected_version = changes[-1].version` (`none` models the IndexError
of `changes[-1]` on an empty buffer, which no command reaches).  The
result carries the published events and that `expected_version`
argument. -/
def repositoryHandle (events : List Event) (now : Nat) (c : Cmd) :
    Except TransErr (List Event × Option Nat) :=
  let current_version := events.length
  match repositoryNewIssue c.id events current_version now with
  | .error e => .error e
  | .ok issue =>
      match issue.doCmd c.kind now with
      | .error e => .error e
      | .ok issue1 =>
          .ok (issue1.changes, issue1.changes.getLast?.map (·.originator_version))

/-! ## The `monad.py` implementation -/

structure MIssue where
  id : Nat
  state : Option State
  version : Nat
  pending : List Event
deriving DecidableEq, Repr

/-- `monad.apply`: the state is rebuilt from the event's class alone and
the version becomes the event's version; the pending buffer is passed
through. -/
def monadApply (e : Event) (i : MIssue) : MIssue :=
  let state : Option State :=
    match e.kind with
    | .opened => some State.OPEN
    | .progressStarted => some State.IN_PROGRESS
    | .progressStopped => some State.OPEN
    | .reopened => some State.REOPENED
    | .resolved => some State.RESOLVED
    | .closed => some State.CLOSED
  ⟨i.id, state, e.originator_version, i.pending⟩

/-- `monad.trigger_event`: build the event with `version + 1`, append it
to the pending buffer and apply it. -/
def monadTrigger (k : EventKind) (now : Nat) (i : MIssue) : MIssue :=
  let e : Event := ⟨i.id, i.version + 1, now, k⟩
  monadApply e { i with pending := i.pending ++ [e] }

/-- `monad.bind(...).to_state(...)`: the operation fails (returns the
`Failure` monad, here `none`) unless the current state is in the
accumulated valid set. -/
def monadOp (valid : List (Option State)) (f : MIssue → MIssue) :
    Option MIssue → Option MIssue
  | none => none
  | some m => if valid.contains m.state then some (f m) else none

/-- `monad.create = bind(trigger_opened).to_state(None)`: legal only in
the absent state. -/
def monadCreate (now : Nat) : Option MIssue → Option MIssue :=
  monadOp [none] (monadTrigger .opened now)

def monadStart (now : Nat) : Option MIssue → Option MIssue :=
  monadOp [some State.OPEN, some State.REOPENED] (monadTrigger .progressStarted now)

def monadStop (now : Nat) : Option MIssue → Option MIssue :=
  monadOp [some State.IN_PROGRESS] (monadTrigger .progressStopped now)

def monadClose (now : Nat) : Option MIssue → Option MIssue :=
  monadOp [some State.OPEN, some State.IN_PROGRESS,
           some State.REOPENED, some State.RESOLVED] (monadTrigger .closed now)

def monadReopen (now : Nat) : Option MIssue → Option MIssue :=
  monadOp [some State.CLOSED, some State.RESOLVED] (monadTrigger .reopened now)

def monadResolve (now : Nat) : Option MIssue → Option MIssue :=
  monadOp [some State.OPEN, some State.REOPENED,
           some State.IN_PROGRESS] (monadTrigger .resolved now)

/-! ## The `exposed_queries.py` implementation -/

structure EQIssue where
  id : Nat
  version : Nat
  state : Option State
deriving DecidableEq, Repr

/-- `IssueProjection.apply`: the event's class selects the unguarded
state-setting method of `exposed_queries.Issue`. -/
def eqApply (e : Event) (i : EQIssue) : EQIssue :=
  let state : Option State :=
    match e.kind with
    | .opened => some State.OPEN
    | .progressStarted => some State.IN_PROGRESS
    | .progressStopped => some State.OPEN
    | .reopened => some State.REOPENED
    | .resolved => some State.RESOLVED
    | .closed => some State.CLOSED
  { i with state := state }

/-- The `can_` query properties of `exposed_queries.Issue`. -/
def eqCan (i : EQIssue) (k : CmdKind) : Bool :=
  match k with
  | .create => i.state != some State.OPEN
  | .start => i.state == some State.OPEN || i.state == some State.REOPENED
  | .stop => i.state == some State.IN_PROGRESS
  | .close =>
      i.state == some State.OPEN || i.state == some State.IN_PROGRESS
        || i.state == some State.REOPENED || i.state == some State.RESOLVED
  | .reopen => i.state == some State.CLOSED || i.state == some State.RESOLVED
  | .resolve =>
      i.state == some State.OPEN || i.state == some State.REOPENED
        || i.state == some State.IN_PROGRESS

/-- `IssueProjection.__call__`: apply each event and set `issue.version`
to its 1-based position in the iteration. -/
def eqProjectAux (i : EQIssue) : List Event → Nat → EQIssue
  | [], _ => i
  | e :: rest, n => eqProjectAux { eqApply e i with version := n + 1 } rest (n + 1)

def eqProject (i : EQIssue) (events : List Event) : EQIssue :=
  eqProjectAux i events 0

/-! ## The `polymorphic.py` implementation

State is one of the classes `Init`, `Open`, `InProgress`, `Closed`,
`Resolved`; a transition method is defined exactly on the classes where
the transition is legal, and the `Issue` protocol's default
implementation of every method raises `InvalidTransition`.  There is no
`Reopened` class: `reopen` returns `Open()`. -/

inductive PolyIssue where
  | init
  | opened
  | inProgress
  | closed
  | resolved
deriving DecidableEq, Repr, Fintype

/-- Invoking the transition method selected by a command on a
`polymorphic` state class; undefined methods fall back to the protocol
default, which raises `InvalidTransition`. -/
def polyMethod (p : PolyIssue) (k : CmdKind) : Except TransErr PolyIssue :=
  match k, p with
  | .create, .init => .ok .opened
  | .start, .opened => .ok .inProgress
  | .stop, .inProgress => .ok .opened
  | .close, .opened => .ok .closed
  | .close, .inProgress => .ok .closed
  | .close, .resolved => .ok .closed
  | .reopen, .closed => .ok .opened
  | .reopen, .resolved => .ok .opened
  | .resolve, .opened => .ok .resolved
  | .resolve, .inProgress => .ok .resolved
  | _, _ => .error .invalidTransition

/-- `polymorphic.CommandHandler.get_issue`: fold the stream through the
transition methods, tracking the last event's version. -/
def polyGetIssueAux : PolyIssue → Nat → List Event → Except TransErr (PolyIssue × Nat)
  | p, v, [] => .ok (p, v)
  | p, _, e :: rest =>
      match polyMethod p (cmdKindOfEvent e.kind) with
      | .error err => .error err
      | .ok p1 => polyGetIssueAux p1 e.originator_version rest

def polyGetIssue (events : List Event) : Except TransErr (PolyIssue × Nat) :=
  polyGetIssueAux .init 0 events

/-- The `State` value corresponding to each `polymorphic` state class
(the class names match the enum names; no class corresponds to
`REOPENED`). -/
def polyStateOf : PolyIssue → Option State
  | .init => none
  | .opened => some State.OPEN
  | .inProgress => some State.IN_PROGRESS
  | .closed => some State.CLOSED
  | .resolved => some State.RESOLVED

/-! ## The `duck_typing.py` implementation

Same state classes as `polymorphic.py` (the initial class is named
`Issue`), but the classes are unrelated: a transition method simply does
not exist on classes where the transition is illegal.  The handler
guards a command by `ismethod(getattr(issue, method, None))`; the replay
in `get_issue` calls the methods unguarded (a missing method would be an
`AttributeError`, modelled as `none`) and tracks the version by
enumerating the stream from 1. -/

inductive DuckIssue where
  | issue
  | opened
  | inProgress
  | resolved
  | closed
deriving DecidableEq, Repr, Fintype

/-- Looking up and invoking the transition method on a `duck_typing`
state class; `none` when the class does not define it. -/
def duckMethod (d : DuckIssue) (k : CmdKind) : Option DuckIssue :=
  match k, d with
  | .create, .issue => some .opened
  | .start, .opened => some .inProgress
  | .stop, .inProgress => some .opened
  | .close, .opened => some .closed
  | .close, .inProgress => some .closed
  | .close, .resolved => some .closed
  | .reopen, .resolved => some .opened
  | .reopen, .closed => some .opened
  | .resolve, .opened => some .resolved
  | .resolve, .inProgress => some .resolved
  | _, _ => none

/-- `raise_invalid_unless_respond_to`: the command is legal exactly when
the state class defines the method. -/
def duckRespondsTo (d : DuckIssue) (k : CmdKind) : Bool :=
  (duckMethod d k).isSome

/-- `duck_typing.CommandHandler.get_issue`: unguarded replay with the
version counted by `enumerate(..., 1)`. -/
def duckGetIssueAux : DuckIssue → Nat → List Event → Option (DuckIssue × Nat)
  | d, v, [] => some (d, v)
  | d, v, e :: rest =>
      match duckMethod d (cmdKindOfEvent e.kind) with
      | none => none
      | some d1 => duckGetIssueAux d1 (v + 1) rest

def duckGetIssue (events : List Event) : Option (DuckIssue × Nat) :=
  duckGetIssueAux .issue 0 events

/-- The `State` value corresponding to each `duck_typing` state class
(no class corresponds to `REOPENED`). -/
def duckStateOf : DuckIssue → Option State
  | .issue => none
  | .opened => some State.OPEN
  | .inProgress => some State.IN_PROGRESS
  | .resolved => some State.RESOLVED
  | .closed => some State.CLOSED

/-- `duck_typing.CommandHandler.__call__`: replay, guard by method
lookup, then publish the single event built with `version + 1` and
`expected_version = version + 1`.  The outer `none` is an
`AttributeError` during replay; the result carries the published event
and the `expected_version` argument. -/
def duckHandle (events : List Event) (now : Nat) (c : Cmd) :
    Option (Except TransErr (Event × Nat)) :=
  match duckGetIssue events with
  | none => none
  | some (d, version) =>
      some
        (if duckRespondsTo d c.kind then
          .ok (⟨c.id, version + 1, now, eventKindOf c.kind⟩, version + 1)
        else .error .invalidTransition)

/-! ## Shared facts about `EventStore.get` -/

theorem event_is_valid_to_zero (a : Option Nat) (e : Event) :
    event_is_valid a (some 0) e = event_is_valid a none e := by
  simp [event_is_valid, truthy]

theorem event_is_valid_after_zero (t : Option Nat) (e : Event) :
    event_is_valid (some 0) t e = event_is_valid none t e := by
  simp [event_is_valid, truthy]

theorem event_is_valid_none_none (e : Event) :
    event_is_valid none none e = true := by
  simp [event_is_valid, truthy]

/-- With no bounds the filter keeps everything. -/
theorem filter_event_is_valid_none_none (l : List Event) :
    l.filter (event_is_valid none none) = l :=
  List.filter_eq_self.mpr fun a _ => event_is_valid_none_none a

/-! ## The table's New-state column -/

/-- The "New state" column of the transition table: the state every
implementation's replay assigns after each event kind (shared verbatim by
the five enum-based `apply` folds). -/
def tableNewState : EventKind → Option State
  | .opened => some State.OPEN
  | .progressStarted => some State.IN_PROGRESS
  | .progressStopped => some State.OPEN
  | .reopened => some State.REOPENED
  | .resolved => some State.RESOLVED
  | .closed => some State.CLOSED

/-! ## Claim C9 -/

/-- C9: the in-memory store's `get` tests each version bound for
truthiness before comparing, so a bound of `0` is ignored:
`to_version=0` returns the full (unbounded) history rather than the
empty sequence, and `after_version=0` behaves exactly like passing no
lower bound. -/
theorem c9_zero_version_bound_ignored :
    ∀ (s : EventStoreMem) (oid : Nat) (after_version to_version : Option Nat)
      (desc : Bool) (limit : Option Nat),
      s.get oid after_version (some 0) desc limit
          = s.get oid after_version none desc limit ∧
      s.get oid (some 0) to_version desc limit
          = s.get oid none to_version desc limit := by
  intro s oid after_version to_version desc limit
  constructor
  · have h : event_is_valid after_version (some 0)
        = event_is_valid after_version none :=
      funext fun e => event_is_valid_to_zero after_version e
    simp [EventStoreMem.get, h]
  · have h : event_is_valid (some 0) to_version
        = event_is_valid none to_version :=
      funext fun e => event_is_valid_after_zero to_version e
    simp [EventStoreMem.get, h]

/-! ## Claim C2 -/

/-- C2 counterexample: the in-memory `EventStore.put` performs no
version check.  Stream 7 has actual latest version 2; a concurrent loser
that read version 1 appends its event with version 2 (so its expected
version, 1, differs from the actual latest version, 2), yet the call
succeeds - `put` cannot fail - and the conflicting event is visible to
the very next read. -/
theorem c2_counterexample :
    EventStoreMem.actual_version
        ⟨[(7, [⟨7, 1, 0, .opened⟩, ⟨7, 2, 1, .closed⟩])]⟩ 7 = .ok (some 2) ∧
    (2 : Nat) ≠ 1 ∧
    ((EventStoreMem.put ⟨[(7, [⟨7, 1, 0, .opened⟩, ⟨7, 2, 1, .closed⟩])]⟩
        [⟨7, 2, 5, .progressStarted⟩]).get 7 none none false none).1
      = [⟨7, 1, 0, .opened⟩, ⟨7, 2, 1, .closed⟩, ⟨7, 2, 5, .progressStarted⟩] := by
  decide

/-- C2 amended: the in-memory `EventStore.put` takes no expected
version and never fails; it unconditionally appends every given event to
the end of its stream, and all of them become visible to subsequent
reads (the next `get` returns a permutation of the extended stream).
Conflict detection is left entirely to the external `event_sourcery`
store used by the other handlers. -/
theorem c2_put_appends_unconditionally :
    ∀ (s : EventStoreMem) (events : List Event) (sid : Nat),
      lookupList (s.put events).entries sid =
        lookupList s.entries sid
          ++ events.filter (fun e => e.originator_id == sid) ∧
      ((s.put events).get sid none none false none).1.Perm
        (lookupList s.entries sid
          ++ events.filter (fun e => e.originator_id == sid)) := by
  intro s events sid
  refine ⟨lookupList_put s events sid, ?_⟩
  have h1 : ((s.put events).get sid none none false none).1
      = List.insertionSort versionLE (lookupList (s.put events).entries sid) := by
    simp [EventStoreMem.get, lookupList_touchEntries, filter_event_is_valid_none_none]
  rw [h1, lookupList_put]
  exact List.perm_insertionSort versionLE _

/-! ## Claim C1 -/

/-- C1 counterexample: in the `polymorphic.py` implementation the
replayed state after `[Opened, Closed]` is the `Closed` class - a state
different from OPEN - and yet the Create command's method (`open`) falls
back to the protocol default and raises `InvalidTransition`, so not
every implementation guards Create by "current state is not OPEN". -/
theorem c1_counterexample :
    polyGetIssue [⟨3, 1, 0, .opened⟩, ⟨3, 2, 1, .closed⟩]
        = .ok (PolyIssue.closed, 2) ∧
    polyStateOf PolyIssue.closed ≠ some State.OPEN ∧
    polyMethod PolyIssue.closed CmdKind.create
        = .error TransErr.invalidTransition := by
  decide

/-- C1 amended: the guard formula "Create is legal exactly when the
current state is not OPEN" is the one checked by `aggregate_root`,
`repository`, `functional`, `extracted_state` and `exposed_queries`,
and in the working implementations a legal Create emits a single
`Opened` event and lands in OPEN (shown for `repository.py`); the
staged `aggregate_root.py`, however, crashes on its guard-pass path -
`Issue.create` calls the nonexistent `trigger_event`, raising
`AttributeError` and emitting nothing.  The `polymorphic`,
`duck_typing` and `monad` implementations accept Create only in the
absent (no prior history) state, rejecting it from CLOSED, IN_PROGRESS
and RESOLVED as well. -/
theorem c1_create_guards :
    (∀ i : ARIssue, i.can_create = true ↔ i.state ≠ some State.OPEN) ∧
    (∀ i : ARIssue, i.state = some State.OPEN →
        i.create = .error ARErr.invalidTransition) ∧
    (∀ i : ARIssue, i.state ≠ some State.OPEN →
        i.create = .error ARErr.attributeError) ∧
    (∀ i : RIssue, i.can .create = true ↔ i.state ≠ some State.OPEN) ∧
    (∀ (i : RIssue) (now : Nat), i.state ≠ some State.OPEN →
        i.doCmd .create now = .ok { i with
          state := some State.OPEN,
          changes := i.changes ++ [⟨i.id, i.version + 1, now, .opened⟩] }) ∧
    (∀ st : FIssueState, fCan st .create = true ↔ st.status ≠ some State.OPEN) ∧
    (∀ st : ESIssueState, esCan st .create = true ↔ st.status ≠ some State.OPEN) ∧
    (∀ i : EQIssue, eqCan i .create = true ↔ i.state ≠ some State.OPEN) ∧
    (∀ p : PolyIssue, polyMethod p .create = .ok PolyIssue.opened ↔ p = .init) ∧
    (∀ d : DuckIssue, duckRespondsTo d .create = true ↔ d = .issue) ∧
    (∀ (i : MIssue) (now : Nat),
        (monadCreate now (some i)).isSome = true ↔ i.state = none) := by
  refine ⟨?_, ?_, ?_, ?_, ?_, ?_, ?_, ?_, ?_, ?_, ?_⟩
  · intro i
    rcases i with ⟨oid, v, pend, st⟩
    rcases st with _ | s <;> simp [ARIssue.can_create]
  · intro i h
    have hb : i.can_create = false := by
      simp [ARIssue.can_create, h]
    simp [ARIssue.create, hb]
  · intro i h
    have hb : i.can_create = true := by
      simp [ARIssue.can_create, h]
    simp [ARIssue.create, hb]
  · intro i
    rcases i with ⟨oid, st, v, ch⟩
    rcases st with _ | s <;> simp [RIssue.can]
  · intro i now h
    have hcan : i.can .create = true := by
      simp [RIssue.can, h]
    simp [RIssue.doCmd, hcan, stateAfter, eventKindOf]
  · intro st
    rcases st with ⟨oid, v, s⟩
    rcases s with _ | s2 <;> simp [fCan]
  · intro st
    rcases st with ⟨oid, v, s⟩
    rcases s with _ | s2 <;> simp [esCan]
  · intro i
    rcases i with ⟨oid, v, s⟩
    rcases s with _ | s2 <;> simp [eqCan]
  · intro p
    cases p <;> simp [polyMethod]
  · intro d
    cases d <;> simp [duckRespondsTo, duckMethod]
  · intro i now
    rcases i with ⟨oid, s, v, pend⟩
    rcases s with _ | s2 <;> simp [monadCreate, monadOp]

/-- Witness for the hypotheses of `c1_create_guards`: a concrete Create
from the CLOSED state in `repository.py` succeeds, emits the single
`Opened` event with the next version and lands in OPEN. -/
theorem c1_create_guards_witness :
    RIssue.doCmd ⟨3, some State.CLOSED, 2, []⟩ .create 5
        = .ok ⟨3, some State.OPEN, 2, [⟨3, 3, 5, EventKind.opened⟩]⟩ :=
  c1_create_guards.2.2.2.2.1 ⟨3, some State.CLOSED, 2, []⟩ 5 (by decide)

/-! ## Claim C3 -/

/-- Replay via `repository.Issue._load` never touches the `version`
attribute fixed by the constructor. -/
theorem RIssue.loadEvents_fields (events : List Event) (i i1 : RIssue) (now : Nat)
    (h : i.loadEvents events now = .ok i1) :
    i1.version = i.version ∧ i1.id = i.id := by
  induction events generalizing i with
  | nil =>
      simp [RIssue.loadEvents] at h
      simp [← h]
  | cons e rest ih =>
      simp only [RIssue.loadEvents] at h
      rcases h2 : i.doCmd (cmdKindOfEvent e.kind) now with err | i2
      · rw [h2] at h
        exact absurd h (by simp)
      · rw [h2] at h
        have hfields : i2.version = i.version ∧ i2.id = i.id := by
          simp only [RIssue.doCmd] at h2
          split at h2
          · cases h2
            exact ⟨rfl, rfl⟩
          · exact absurd h2 (by simp)
        obtain ⟨hv, hid⟩ := hfields
        have := ih i2 h
        exact ⟨this.1.trans hv, this.2.trans hid⟩

/-- C3 counterexample: on a fresh stream (`currentVersion = 0`) the
`functional.py` handler processing Create publishes the new event with
version 1 and passes `expected_version = 1` - the new event's version,
not the version it read (0). -/
theorem c3_counterexample :
    functionalHandle [] 0 ⟨5, CmdKind.create⟩ = .ok (⟨5, 1, 0, .opened⟩, 1) ∧
    (functionalGetState 5 []).version = 0 ∧
    (1 : Nat) ≠ 0 := by
  refine ⟨rfl, rfl, by decide⟩

/-- C3 amended: when the guard passes with replayed `currentVersion = N`
the handler constructs exactly one event with version `N + 1`, but the
`expected_version` it passes to the Event Store's publish is also
`N + 1` - the new event's version, not the version it read.  Proved for
the `functional`, `duck_typing` and `repository` handlers. -/
theorem c3_expected_version_is_new_version :
    (∀ (events : List Event) (now : Nat) (c : Cmd) (e : Event) (ev : Nat),
        functionalHandle events now c = .ok (e, ev) →
          e.originator_version = (functionalGetState c.id events).version + 1 ∧
          ev = (functionalGetState c.id events).version + 1) ∧
    (∀ (events : List Event) (now : Nat) (c : Cmd) (e : Event) (ev : Nat),
        duckHandle events now c = some (.ok (e, ev)) →
          ∃ d ver, duckGetIssue events = some (d, ver) ∧
            e.originator_version = ver + 1 ∧ ev = ver + 1) ∧
    (∀ (events : List Event) (now : Nat) (c : Cmd) (evs : List Event)
        (ev : Option Nat),
        repositoryHandle events now c = .ok (evs, ev) →
          ∃ e, evs = [e] ∧ e.originator_version = events.length + 1 ∧
            ev = some (events.length + 1)) := by
  refine ⟨?_, ?_, ?_⟩
  · intro events now c e ev h
    simp only [functionalHandle] at h
    split at h
    · cases h
      exact ⟨rfl, rfl⟩
    · exact absurd h (by simp)
  · intro events now c e ev h
    simp only [duckHandle] at h
    split at h
    · exact absurd h (by simp)
    · rename_i d ver heq
      refine ⟨d, ver, heq, ?_⟩
      simp only [Option.some.injEq] at h
      split at h
      · cases h
        exact ⟨rfl, rfl⟩
      · exact absurd h (by simp)
  · intro events now c evs ev h
    simp only [repositoryHandle] at h
    split at h
    · exact absurd h (by simp)
    · rename_i issue hn
      have hver : issue.version = events.length ∧ issue.changes = [] := by
        simp only [repositoryNewIssue] at hn
        split at hn
        · exact absurd hn (by simp)
        · rename_i i2 hl
          cases hn
          exact ⟨(RIssue.loadEvents_fields events _ i2 now hl).1, rfl⟩
      split at h
      · exact absurd h (by simp)
      · rename_i issue1 hd
        cases h
        simp only [RIssue.doCmd] at hd
        split at hd
        · cases hd
          refine ⟨⟨issue.id, issue.version + 1, now, eventKindOf c.kind⟩, ?_, ?_, ?_⟩
          · simp [hver.2]
          · simp [hver.1]
          · simp [hver.1, hver.2]
        · exact absurd hd (by simp)

/-- Witness for `c3_expected_version_is_new_version`: the `functional`
handler on a stream of one event (`currentVersion = 1`) publishing with
`expected_version = 2`. -/
theorem c3_expected_version_witness :
    (⟨5, 2, 9, EventKind.closed⟩ : Event).originator_version
        = (functionalGetState 5 [⟨5, 1, 0, .opened⟩]).version + 1 ∧
    (2 : Nat) = (functionalGetState 5 [⟨5, 1, 0, .opened⟩]).version + 1 :=
  c3_expected_version_is_new_version.1 [⟨5, 1, 0, .opened⟩] 9 ⟨5, CmdKind.close⟩
    ⟨5, 2, 9, EventKind.closed⟩ 2 (by decide)

/-! ## Claim C5 -/

/-- C5 counterexample: `duck_typing.py` (and `polymorphic.py`) have no
REOPENED state at all - `reopen` returns the `Open` class - so replaying
a `Reopened` event yields the same state as replaying an `Opened` event,
not a distinct REOPENED state as the table's New-state column requires. -/
theorem c5_counterexample :
    duckMethod DuckIssue.closed (cmdKindOfEvent .reopened) = some DuckIssue.opened ∧
    duckMethod DuckIssue.resolved (cmdKindOfEvent .reopened) = some DuckIssue.opened ∧
    duckGetIssue [⟨3, 1, 0, .opened⟩, ⟨3, 2, 1, .closed⟩, ⟨3, 3, 2, .reopened⟩]
        = some (DuckIssue.opened, 3) ∧
    duckStateOf DuckIssue.opened = some State.OPEN ∧
    some State.OPEN ≠ some State.REOPENED ∧
    polyMethod PolyIssue.closed (cmdKindOfEvent .reopened) = .ok PolyIssue.opened := by
  refine ⟨rfl, rfl, rfl, rfl, by decide, rfl⟩

/-- C5 amended: in the five enum-based implementations
(`aggregate_root`, `extracted_state`, `functional`, `monad`,
`exposed_queries`) the replay fold is total over the six event kinds,
ignores the prior state, and maps each event to exactly the table's
New-state column (`Opened` and `ProgressStopped` to OPEN,
`ProgressStarted` to IN_PROGRESS, `Reopened` to REOPENED, `Resolved` to
RESOLVED, `Closed` to CLOSED).  In `polymorphic` and `duck_typing`,
which have no REOPENED state class, a `Reopened` event instead folds to
the `Open` class.  And `repository.py` replays through its guard-checked
command methods, so its fold is neither total nor prior-state
independent: a successful step does assign the table's New-state column
value, but a stored event whose transition is illegal from the current
replayed state - e.g. `Reopened` while the state is OPEN - raises
`InvalidTransition` instead of folding. -/
theorem c5_fold_matches_table :
    (∀ (i : ARIssue) (e : Event), (i.applyEvent e).state = tableNewState e.kind) ∧
    (∀ (st : ESIssueState) (e : Event), (st.applyES e).status = tableNewState e.kind) ∧
    (∀ (st : FIssueState) (e : Event), (st.applyF e).status = tableNewState e.kind) ∧
    (∀ (i : MIssue) (e : Event), (monadApply e i).state = tableNewState e.kind) ∧
    (∀ (i : EQIssue) (e : Event), (eqApply e i).state = tableNewState e.kind) ∧
    (tableNewState .opened = some State.OPEN ∧
     tableNewState .progressStarted = some State.IN_PROGRESS ∧
     tableNewState .progressStopped = some State.OPEN ∧
     tableNewState .reopened = some State.REOPENED ∧
     tableNewState .resolved = some State.RESOLVED ∧
     tableNewState .closed = some State.CLOSED) ∧
    (duckMethod DuckIssue.closed (cmdKindOfEvent .reopened) = some DuckIssue.opened ∧
     polyMethod PolyIssue.closed (cmdKindOfEvent .reopened) = .ok PolyIssue.opened) ∧
    (∀ (i : RIssue) (k : CmdKind) (now : Nat) (i1 : RIssue),
        i.doCmd k now = .ok i1 → i1.state = some (stateAfter k)) ∧
    (∀ k : CmdKind, some (stateAfter k) = tableNewState (eventKindOf k)) ∧
    (RIssue.loadEvents ⟨0, none, 2, []⟩
        [⟨0, 1, 0, .opened⟩, ⟨0, 2, 1, .reopened⟩] 0
      = .error .invalidTransition) := by
  refine ⟨?_, ?_, ?_, ?_, ?_, ?_, ?_, ?_, ?_, ?_⟩
  · intro i e
    obtain ⟨a, b, t, k⟩ := e
    cases k <;> rfl
  · intro st e
    obtain ⟨a, b, t, k⟩ := e
    cases k <;> rfl
  · intro st e
    obtain ⟨a, b, t, k⟩ := e
    cases k <;> rfl
  · intro i e
    obtain ⟨a, b, t, k⟩ := e
    cases k <;> rfl
  · intro i e
    obtain ⟨a, b, t, k⟩ := e
    cases k <;> rfl
  · exact ⟨rfl, rfl, rfl, rfl, rfl, rfl⟩
  · exact ⟨rfl, rfl⟩
  · intro i k now i1 h
    simp only [RIssue.doCmd] at h
    split at h
    · cases h
      rfl
    · exact absurd h (by simp)
  · intro k
    cases k <;> rfl
  · rfl

/-- Witness for the hypothesis of `c5_fold_matches_table`: a successful
`repository.py` replay step (Close from OPEN) assigns exactly the
table's New-state column value. -/
theorem c5_fold_matches_table_witness :
    (⟨7, some State.CLOSED, 1, [⟨7, 2, 4, EventKind.closed⟩]⟩ : RIssue).state
        = some (stateAfter CmdKind.close) :=
  c5_fold_matches_table.2.2.2.2.2.2.2.1 ⟨7, some State.OPEN, 1, []⟩ CmdKind.close 4
    ⟨7, some State.CLOSED, 1, [⟨7, 2, 4, EventKind.closed⟩]⟩ (by decide)

/-! ## Claim C6 -/

/-- C6: the in-memory store's `get` is not a pure read.  On an unknown
stream the `defaultdict` access inside `get` inserts an empty list under
the key, and a subsequent `actual_version` call - whose own
`not in self._in_memory` guard now fails - crashes in `max()` over the
empty sequence (a `ValueError`, modelled as `.error ()`) instead of
returning `None` as it did before the read. -/
theorem c6_get_mutates_observable_state :
    EventStoreMem.actual_version ⟨[]⟩ 9 = .ok none ∧
    (EventStoreMem.get ⟨[]⟩ 9 none none false none).1 = [] ∧
    (EventStoreMem.get ⟨[]⟩ 9 none none false none).2 = ⟨[(9, [])]⟩ ∧
    EventStoreMem.actual_version (EventStoreMem.get ⟨[]⟩ 9 none none false none).2 9
        = .error () := by
  refine ⟨rfl, rfl, rfl, rfl⟩

/-! ## Claim C8 -/

/-- The part of an event the replay folds actually read: its kind (the
runtime class inspected by the if-chains) and its version. -/
def kindVersion (e : Event) : EventKind × Nat :=
  (e.kind, e.originator_version)

/-- One `extracted_state` fold step reads nothing but kind and version. -/
theorem applyES_congr (st : ESIssueState) (e1 e2 : Event)
    (h : kindVersion e1 = kindVersion e2) :
    st.applyES e1 = st.applyES e2 := by
  obtain ⟨a1, v1, t1, k1⟩ := e1
  obtain ⟨a2, v2, t2, k2⟩ := e2
  simp only [kindVersion, Prod.mk.injEq] at h
  simp [ESIssueState.applyES, h.1, h.2]

/-- One `monad` fold step reads nothing but kind and version. -/
theorem monadApply_congr (i : MIssue) (e1 e2 : Event)
    (h : kindVersion e1 = kindVersion e2) :
    monadApply e1 i = monadApply e2 i := by
  obtain ⟨a1, v1, t1, k1⟩ := e1
  obtain ⟨a2, v2, t2, k2⟩ := e2
  simp only [kindVersion, Prod.mk.injEq] at h
  simp [monadApply, h.1, h.2]

/-- C8: replay from scratch is a pure function of the event history.
Any two event sequences that agree kind-for-kind and version-for-version
(in particular the same sequence folded twice, or the same history with
different timestamps or stream ids) replay to the same state and the
same version, in both the `extracted_state` and the `monad` folds. -/
theorem c8_replay_deterministic :
    ∀ (es1 es2 : List Event),
      es1.map kindVersion = es2.map kindVersion →
      ∀ (st : ESIssueState) (i : MIssue),
        es1.foldl ESIssueState.applyES st = es2.foldl ESIssueState.applyES st ∧
        es1.foldl (fun m e => monadApply e m) i
          = es2.foldl (fun m e => monadApply e m) i := by
  intro es1
  induction es1 with
  | nil =>
      intro es2 h st i
      have : es2 = [] := by
        cases es2 with
        | nil => rfl
        | cons f fs => simp at h
      subst this
      exact ⟨rfl, rfl⟩
  | cons e rest ih =>
      intro es2 h st i
      cases es2 with
      | nil => simp at h
      | cons f fs =>
          simp only [List.map_cons, List.cons.injEq] at h
          obtain ⟨hkv, hrest⟩ := h
          rw [List.foldl_cons, List.foldl_cons, List.foldl_cons, List.foldl_cons,
            applyES_congr st e f hkv, monadApply_congr i e f hkv]
          exact ih fs hrest (st.applyES f) (monadApply f i)

/-- Witness for `c8_replay_deterministic`: two one-event histories that
differ only in timestamp and stream id replay identically. -/
theorem c8_replay_deterministic_witness :
    [(⟨4, 1, 11, .opened⟩ : Event)].foldl ESIssueState.applyES ⟨0, 0, none⟩
        = [(⟨9, 1, 77, .opened⟩ : Event)].foldl ESIssueState.applyES ⟨0, 0, none⟩ ∧
    [(⟨4, 1, 11, .opened⟩ : Event)].foldl (fun m e => monadApply e m) ⟨0, none, 0, []⟩
        = [(⟨9, 1, 77, .opened⟩ : Event)].foldl (fun m e => monadApply e m)
            ⟨0, none, 0, []⟩ :=
  c8_replay_deterministic [⟨4, 1, 11, .opened⟩] [⟨9, 1, 77, .opened⟩] (by decide)
    ⟨0, 0, none⟩ ⟨0, none, 0, []⟩

/-! ## Claim C10 -/

/-- The last-stored version with a start value, as tracked by
`Aggregate.apply` (`self._version = event.originator_version`). -/
def lastVersionFrom (d : Nat) : List Event → Nat
  | [] => d
  | e :: rest => lastVersionFrom e.originator_version rest

/-- `Aggregate`-style replay tracks exactly the last event's version. -/
theorem foldl_applyEvent_version (events : List Event) (i : ARIssue) :
    (events.foldl ARIssue.applyEvent i).version
      = lastVersionFrom i.version events := by
  induction events generalizing i with
  | nil => rfl
  | cons e rest ih =>
      rw [List.foldl_cons, ih]
      rfl

/-- On a gapless 1-based history the last version is the length. -/
theorem lastVersionFrom_of_range (events : List Event) :
    ∀ (s n : Nat), events.map (·.originator_version) = List.range' s n →
      lastVersionFrom (s - 1) events = s + n - 1 := by
  induction events with
  | nil =>
      intro s n h
      have hn : n = 0 := by
        have h2 : List.range' s n = [] := h.symm
        rw [List.range'_eq_nil] at h2
        exact h2
      subst hn
      rfl
  | cons e rest ih =>
      intro s n h
      cases n with
      | zero => simp at h
      | succ m =>
          rw [List.range'_succ] at h
          simp only [List.map_cons, List.cons.injEq] at h
          obtain ⟨hv, hrest⟩ := h
          show lastVersionFrom e.originator_version rest = s + (m + 1) - 1
          rw [hv]
          have h2 := ih (s + 1) m hrest
          simp only [Nat.add_sub_cancel] at h2
          rw [h2]
          omega

/-- The version replayed from scratch over a gapless 1-based history. -/
theorem lastVersionFrom_zero (events : List Event) (n : Nat)
    (h : events.map (·.originator_version) = List.range' 1 n) :
    lastVersionFrom 0 events = n := by
  have h2 := lastVersionFrom_of_range events 1 n h
  simpa using h2

/-- Version by replay through `Aggregate.apply` from a fresh aggregate:
the last applied event's version (`0` if none). -/
def aggregateReplayVersion (events : List Event) : Nat :=
  (events.foldl ARIssue.applyEvent ⟨0, 0, [], none⟩).version

/-- `repository.Repository.load`: the events and `len(events)` as the
current version. -/
def repositoryLoad (events : List Event) : List Event × Nat :=
  (events, events.length)

/-- C10: whenever a stream's stored versions are exactly `1..N` in
order, counting the events (`repository.Repository.load`,
`exposed_queries.IssueProjection`) and taking the last event's version
field (`Aggregate.apply`) compute the same `currentVersion`; and without
that gapless precondition the two computations can differ, witnessed by
a single stored event carrying version 5. -/
theorem c10_replay_version_agreement :
    (∀ events : List Event,
        events.map (·.originator_version) = List.range' 1 events.length →
          aggregateReplayVersion events = (repositoryLoad events).2 ∧
          aggregateReplayVersion events = (eqProject ⟨0, 0, none⟩ events).version) ∧
    aggregateReplayVersion [⟨0, 5, 0, .opened⟩]
      ≠ (repositoryLoad [⟨0, 5, 0, .opened⟩]).2 := by
  constructor
  · intro events h
    have hlast : aggregateReplayVersion events = events.length := by
      rw [aggregateReplayVersion, foldl_applyEvent_version]
      exact lastVersionFrom_zero events events.length h
    refine ⟨hlast, ?_⟩
    rw [hlast]
    have hproj : ∀ (i : EQIssue) (es : List Event) (n : Nat),
        (eqProjectAux i es n).version = if es.isEmpty then i.version else n + es.length := by
      intro i es
      induction es generalizing i with
      | nil => intro n; rfl
      | cons f fs ih =>
          intro n
          rw [eqProjectAux, ih]
          cases fs
          · simp
          · simp
            omega
    rw [eqProject, hproj]
    cases events <;> simp
  · rw [aggregateReplayVersion, foldl_applyEvent_version]
    decide

/-- Witness for `c10_replay_version_agreement`: the two version
computations agree on the gapless one-event history `[version 1]`. -/
theorem c10_replay_version_witness :
    aggregateReplayVersion [⟨0, 1, 0, .opened⟩]
        = (repositoryLoad [⟨0, 1, 0, .opened⟩]).2 ∧
    aggregateReplayVersion [⟨0, 1, 0, .opened⟩]
        = (eqProject ⟨0, 0, none⟩ [⟨0, 1, 0, .opened⟩]).version :=
  c10_replay_version_agreement.1 [⟨0, 1, 0, .opened⟩] (by decide)

/-! ## Claim C7 -/

/-- A stream list already stored in ascending gapless order sorts to
itself. -/
theorem insertionSort_eq_of_range (l : List Event) (n : Nat)
    (h : l.map (·.originator_version) = List.range' 1 n) :
    List.insertionSort versionLE l = l := by
  have h1 : (l.map (·.originator_version)).Pairwise (· ≤ ·) := by
    rw [h]
    exact (List.pairwise_lt_range' 1 n).imp Nat.le_of_lt
  rw [List.pairwise_map] at h1
  exact List.Sorted.insertionSort_eq h1

/-- Every stream of the store holds versions exactly `1..length` in
order. -/
def GaplessStore (s : EventStoreMem) : Prop :=
  ∀ sid, (lookupList s.entries sid).map (·.originator_version)
      = List.range' 1 (lookupList s.entries sid).length

/-- Under the gapless invariant a full ascending read returns the stored
stream list unchanged. -/
theorem get_fst_of_gapless (s : EventStoreMem) (oid : Nat) (hs : GaplessStore s) :
    (s.get oid none none false none).1 = lookupList s.entries oid := by
  simp only [EventStoreMem.get, lookupList_touchEntries,
    filter_event_is_valid_none_none, if_neg, Bool.false_eq_true, not_false_iff,
    ite_false]
  exact insertionSort_eq_of_range _ _ (hs oid)

/-- The store returned by a read is the original with the requested key
materialised. -/
theorem get_snd (s : EventStoreMem) (oid : Nat) (after_version to_version : Option Nat)
    (desc : Bool) (limit : Option Nat) :
    (s.get oid after_version to_version desc limit).2
      = ⟨touchEntries s.entries oid⟩ := rfl

theorem foldl_applyES_id (events : List Event) (st : ESIssueState) :
    (events.foldl ESIssueState.applyES st).id = st.id := by
  induction events generalizing st with
  | nil => rfl
  | cons e rest ih =>
      rw [List.foldl_cons, ih]
      rfl

theorem foldl_applyES_version (events : List Event) (st : ESIssueState) :
    (events.foldl ESIssueState.applyES st).version
      = lastVersionFrom st.version events := by
  induction events generalizing st with
  | nil => rfl
  | cons e rest ih =>
      rw [List.foldl_cons, ih]
      rfl

/-- Whether a handler call succeeded, as a 0/1 count. -/
def okBit : Except TransErr Unit → Nat
  | .ok _ => 1
  | .error _ => 0

/-- Unfolding of the `extracted_state` handler's load / process /
save-on-success shape. -/
theorem extractedStateHandle_eq (s : EventStoreMem) (now : Nat) (c : Cmd) :
    extractedStateHandle s now c =
      match esProcess
          ⟨(s.get c.id none none false none).1.foldl ESIssueState.applyES
              ⟨c.id, 0, none⟩, []⟩ c.kind now with
      | .error e => (.error e, (s.get c.id none none false none).2)
      | .ok issue =>
          (.ok (), (s.get c.id none none false none).2.put issue.changes) := rfl

/-- Effect of one `extracted_state` handler call on the stored streams:
a successful call appends exactly one event carrying the next version to
its own stream; a rejected call stores nothing. -/
theorem extractedStateHandle_lookup (s : EventStoreMem) (now : Nat) (c : Cmd)
    (hs : GaplessStore s) (sid : Nat) :
    lookupList (extractedStateHandle s now c).2.entries sid =
      if c.id = sid ∧ okBit (extractedStateHandle s now c).1 = 1 then
        lookupList s.entries sid
          ++ [⟨c.id, (lookupList s.entries c.id).length + 1, now,
               eventKindOf c.kind⟩]
      else lookupList s.entries sid := by
  have hev : (s.get c.id none none false none).1 = lookupList s.entries c.id :=
    get_fst_of_gapless s c.id hs
  rw [extractedStateHandle_eq, hev]
  have hid :
      ((lookupList s.entries c.id).foldl ESIssueState.applyES ⟨c.id, 0, none⟩).id
        = c.id := foldl_applyES_id _ _
  have hver :
      ((lookupList s.entries c.id).foldl ESIssueState.applyES ⟨c.id, 0, none⟩).version
        = (lookupList s.entries c.id).length := by
    rw [foldl_applyES_version]
    exact lastVersionFrom_zero _ _ (hs c.id)
  simp only [esProcess]
  by_cases hcan :
      esCan ((lookupList s.entries c.id).foldl ESIssueState.applyES
        ⟨c.id, 0, none⟩) c.kind = true
  · simp only [hcan, if_true, ESIssue.trigger, okBit, EventStoreMem.put, get_snd,
      List.foldl_cons, List.foldl_nil, List.nil_append]
    rw [lookupList_appendEntry]
    simp only [hid, hver, lookupList_touchEntries]
    by_cases hcs : c.id = sid
    · rw [if_pos hcs, if_pos ⟨hcs, trivial⟩]
    · rw [if_neg hcs, if_neg (fun hc => hcs hc.1)]
  · simp [hcan, okBit, get_snd, lookupList_touchEntries]

/-- Running the `extracted_state` handler over commands, in order
(timestamps play no role and are fixed at 0). -/
def runES : EventStoreMem → List Cmd → EventStoreMem
  | s, [] => s
  | s, c :: rest => runES (extractedStateHandle s 0 c).2 rest

/-- How many of the commands for a given stream succeed when run in
order from the given store. -/
def successCountES : EventStoreMem → List Cmd → Nat → Nat
  | _, [], _ => 0
  | s, c :: rest, sid =>
      (if c.id = sid then okBit (extractedStateHandle s 0 c).1 else 0)
        + successCountES (extractedStateHandle s 0 c).2 rest sid

/-- The run preserves the gapless invariant, and each stream's length
grows by exactly the number of successful commands that targeted it. -/
theorem runES_gapless (cs : List Cmd) :
    ∀ (s : EventStoreMem), GaplessStore s →
      GaplessStore (runES s cs) ∧
      ∀ sid, (lookupList (runES s cs).entries sid).length
          = (lookupList s.entries sid).length + successCountES s cs sid := by
  induction cs with
  | nil =>
      intro s hs
      exact ⟨hs, fun sid => by simp [runES, successCountES]⟩
  | cons c rest ih =>
      intro s hs
      have hstep := extractedStateHandle_lookup s 0 c hs
      have hg : GaplessStore (extractedStateHandle s 0 c).2 := by
        intro sid
        rw [hstep sid]
        by_cases hc : c.id = sid ∧ okBit (extractedStateHandle s 0 c).1 = 1
        · rw [if_pos hc]
          have hm := hs sid
          rw [← hc.1] at hm ⊢
          simp only [List.map_append, List.length_append, List.map_cons,
            List.map_nil, List.length_cons, List.length_nil]
          rw [hm]
          have harith : 1 + 1 * (lookupList s.entries c.id).length
              = (lookupList s.entries c.id).length + 1 := by omega
          rw [List.range'_concat, harith]
        · rw [if_neg hc]
          exact hs sid
      have hlen : ∀ sid,
          (lookupList (extractedStateHandle s 0 c).2.entries sid).length
            = (lookupList s.entries sid).length
              + (if c.id = sid then okBit (extractedStateHandle s 0 c).1 else 0) := by
        intro sid
        rw [hstep sid]
        by_cases hc : c.id = sid ∧ okBit (extractedStateHandle s 0 c).1 = 1
        · rw [if_pos hc, if_pos hc.1, hc.2]
          simp
        · rw [if_neg hc]
          by_cases h1 : c.id = sid
          · have h0 : okBit (extractedStateHandle s 0 c).1 = 0 := by
              rcases hr : (extractedStateHandle s 0 c).1 with err | u
              · rfl
              · exact absurd ⟨h1, by rw [hr]; rfl⟩ hc
            rw [if_pos h1, h0]
            simp
          · rw [if_neg h1]
            simp
      obtain ⟨ihg, ihl⟩ := ih (extractedStateHandle s 0 c).2 hg
      refine ⟨?_, ?_⟩
      · rw [runES]
        exact ihg
      · intro sid
        rw [runES, successCountES, ihl sid, hlen sid, Nat.add_assoc]

/-- C7: running any command sequence from an empty store with the
`extracted_state` handler, every stream's read returns events whose
versions are precisely `1..N` in ascending order, where `N` is the
number of commands for that stream that succeeded - each successful
command extends its stream's gapless 1-based version sequence by exactly
one, and rejected commands add nothing. -/
theorem c7_gapless_versions :
    ∀ (cs : List Cmd) (sid : Nat),
      ((runES ⟨[]⟩ cs).get sid none none false none).1.map (·.originator_version)
        = List.range' 1 (successCountES ⟨[]⟩ cs sid) := by
  intro cs sid
  have h0 : GaplessStore ⟨[]⟩ := fun _ => rfl
  obtain ⟨hg, hl⟩ := runES_gapless cs ⟨[]⟩ h0
  rw [get_fst_of_gapless _ _ hg, hg sid, hl sid]
  simp [lookupList]

/-! ## Claim C4 -/

/-- The defaultdict materialisation performed by a read does not change
what any stream's read returns. -/
theorem get_fst_touchEntries (s : EventStoreMem) (oid sid : Nat) :
    ((EventStoreMem.mk (touchEntries s.entries oid)).get sid none none false none).1
      = (s.get sid none none false none).1 := by
  simp [EventStoreMem.get, lookupList_touchEntries]

/-- C4 counterexample: in the staged `aggregate_root.py` the handler's
load step calls `self._repository.get`, which the local `Repository`
does not define, so even a command whose guard would fail (Close on a
fresh, absent stream - a pair outside the legal-transition table)
surfaces `AttributeError`, not `InvalidTransition`; the claimed
rejection semantics do not hold of that cited implementation (the store
is indeed left untouched, but by a crash before anything runs). -/
theorem c4_counterexample :
    aggregateRootHandle ⟨[]⟩ ⟨0, CmdKind.close⟩
        = (.error ARErr.attributeError, ⟨[]⟩) ∧
    ARErr.attributeError ≠ ARErr.invalidTransition := by
  exact ⟨rfl, by decide⟩

/-- C4 amended: in the coherent handlers a command whose guard fails
against the replayed state raises `InvalidTransition` and the save step
is skipped entirely, leaving the stream exactly as it was.  Proved for
the `repository.py` handler - whose result carries the publish that
`Repository.save` would issue, so an `InvalidTransition` result means no
event is ever appended - and for the `extracted_state.py` handler over
the in-memory store, where every stream's read (hence its event count,
replayed state and version) is shown unchanged.  The staged
`aggregate_root.py` handler instead raises `AttributeError` on every
call, before any guard runs. -/
theorem c4_rejected_command_leaves_streams_unchanged :
    (∀ (events : List Event) (now : Nat) (c : Cmd) (issue : RIssue),
        repositoryNewIssue c.id events events.length now = .ok issue →
        issue.can c.kind = false →
        repositoryHandle events now c = .error .invalidTransition) ∧
    (∀ (s : EventStoreMem) (now : Nat) (c : Cmd) (sid : Nat),
        esCan ((s.get c.id none none false none).1.foldl ESIssueState.applyES
            ⟨c.id, 0, none⟩) c.kind = false →
        (extractedStateHandle s now c).1 = .error .invalidTransition ∧
        ((extractedStateHandle s now c).2.get sid none none false none).1
          = (s.get sid none none false none).1) := by
  constructor
  · intro events now c issue hload hcan
    simp only [repositoryHandle, hload]
    simp [RIssue.doCmd, hcan]
  · intro s now c sid hcan
    rw [extractedStateHandle_eq]
    simp only [esProcess, hcan, if_false]
    exact ⟨rfl, get_fst_touchEntries s c.id sid⟩

/-- Witness for `c4_rejected_command_leaves_streams_unchanged`: Close on
a fresh (absent) stream is rejected by the `repository.py` handler with
`InvalidTransition`, publishing nothing. -/
theorem c4_rejected_command_witness :
    repositoryHandle [] 0 ⟨0, CmdKind.close⟩ = .error .invalidTransition :=
  c4_rejected_command_leaves_streams_unchanged.1 [] 0 ⟨0, CmdKind.close⟩
    ⟨0, none, 0, []⟩ (by decide) (by decide)

end Aggregates
